import Mathlib

/-!
Shallow embedding of `finance_tracker.py` (Personal-Finance-Tracker).

Modelling conventions:
* Monetary amounts are exact rationals (`ℚ`).  A raw persisted amount field is
  an `Option ℚ`: `some q` stands for a string/number that Python's `float`
  parses to the value `q`, `none` for an unparseable field.  The float-specific
  values `nan`/`inf` are outside the modelled domain.
* The CSV backing file is a structured list of raw records (`RawTrans`,
  `RawBudget`); CSV byte-level encoding is a pluggable backend and is not
  modelled.  A whole store is `Option (List _)`, `none` meaning the backing
  file is absent (`FileNotFoundError`).
* Python exceptions are `Except String`; logging side effects are not part of
  the state.
* Date validation models CPython `datetime.strptime(date, "%Y-%m-%d")`:
  the year is exactly four digits, month and day are one or two digits
  (zero padding optional), and the resulting triple must be a valid
  calendar date with year at least 1.
* Python `str.lower` is modelled by ASCII lowering; on the membership test
  against "income"/"expense" the two agree (no character outside A-Z lowers
  to any letter of these two words).
-/

namespace FinTrack

/-! Section: characters and dates (model of the `strptime` format regex) -/

def isDig (c : Char) : Bool := '0' ≤ c && c ≤ '9'

def digVal (c : Char) : Nat := c.toNat - '0'.toNat

/-- Split a character list at every `'-'` (the literal separators of the
format string). -/
def splitDash : List Char → List (List Char)
  | [] => [[]]
  | c :: rest =>
    if c = '-' then [] :: splitDash rest
    else
      match splitDash rest with
      | [] => [[c]]
      | p :: ps => (c :: p) :: ps

/-- Model of `%Y`: exactly four digits. -/
def yearVal : List Char → Option Nat
  | [a, b, c, d] =>
    if isDig a && isDig b && isDig c && isDig d then
      some (1000 * digVal a + 100 * digVal b + 10 * digVal c + digVal d)
    else none
  | _ => none

/-- Model of `%m`: the regex alternatives for a month, one or two digits. -/
def monthVal : List Char → Option Nat
  | [c] => if '1' ≤ c && c ≤ '9' then some (digVal c) else none
  | [a, b] =>
    if a = '1' && '0' ≤ b && b ≤ '2' then some (10 + digVal b)
    else if a = '0' && '1' ≤ b && b ≤ '9' then some (digVal b)
    else none
  | _ => none

/-- Model of `%d`: the regex alternatives for a day, one or two digits. -/
def dayVal : List Char → Option Nat
  | [c] => if '1' ≤ c && c ≤ '9' then some (digVal c) else none
  | [a, b] =>
    if a = '3' && ('0' ≤ b && b ≤ '1') then some (30 + digVal b)
    else if ('1' ≤ a && a ≤ '2') && isDig b then some (10 * digVal a + digVal b)
    else if a = '0' && '1' ≤ b && b ≤ '9' then some (digVal b)
    else none
  | _ => none

def isLeap (y : Nat) : Bool := y % 4 == 0 && (y % 100 != 0 || y % 400 == 0)

def daysInMonth (y m : Nat) : Nat :=
  if m == 2 then (if isLeap y then 29 else 28)
  else if m == 4 || m == 6 || m == 9 || m == 11 then 30
  else 31

/-- Model of `datetime.strptime(s, "%Y-%m-%d")`: `some (y, m, d)` on success.
The `datetime` constructor additionally requires `1 ≤ y` and a day that exists
in the given month. -/
def parseDate (s : String) : Option (Nat × Nat × Nat) :=
  match splitDash s.data with
  | [ys, ms, ds] =>
    match yearVal ys, monthVal ms, dayVal ds with
    | some y, some m, some d =>
      if 1 ≤ y ∧ d ≤ daysInMonth y m then some (y, m, d) else none
    | _, _, _ => none
  | _ => none

def validDate (s : String) : Bool := (parseDate s).isSome

/-! Section: ASCII lowering (model of `str.lower` on the relevant inputs) -/

def lowerChar (c : Char) : Char :=
  if 'A' ≤ c && c ≤ 'Z' then Char.ofNat (c.toNat + 32) else c

def lowerAscii (s : String) : String := ⟨s.data.map lowerChar⟩

/-! Section: Transaction -/

structure Transaction where
  trans_id : String
  date : String
  amount : ℚ
  category : String
  trans_type : String
  description : String
deriving DecidableEq, Repr

/-- Test `trans_type.lower() in ('income', 'expense')`. -/
def typeOk (ttype : String) : Bool :=
  lowerAscii ttype == "income" || lowerAscii ttype == "expense"

/-- Model of `Transaction._validate_inputs(amount, date, trans_type)`: date
first, then amount (unparseable or non-positive both raise `ValueError`),
then type. -/
def Transaction.validate (amount : Option ℚ) (date ttype : String) :
    Except String Unit :=
  if validDate date = false then .error "Date must be in YYYY-MM-DD format"
  else
    match amount with
    | none => .error "Amount must be a positive number"
    | some a =>
      if a ≤ 0 then .error "Amount must be a positive number"
      else if typeOk ttype then .ok ()
      else .error "Transaction type must be income or expense"

/-- Model of `Transaction.__init__`: validate, then store the fields, with
`amount = float(amount)` and `trans_type = trans_type.lower()`. -/
def Transaction.build (tid date : String) (amount : Option ℚ)
    (category ttype desc : String) : Except String Transaction :=
  match Transaction.validate amount date ttype with
  | .error e => .error e
  | .ok _ => .ok ⟨tid, date, amount.getD 0, category, lowerAscii ttype, desc⟩

/-- The shape of every transaction that passed validation: parseable date,
positive amount, lowercased type. -/
def Transaction.WF (t : Transaction) : Prop :=
  validDate t.date = true ∧ 0 < t.amount ∧
    (t.trans_type = "income" ∨ t.trans_type = "expense")

/-! Section: Budget -/

structure Budget where
  category : String
  limit : ℚ
deriving DecidableEq, Repr

/-- Model of `Budget.__init__` / `Budget._validate_inputs(limit)`. -/
def Budget.build (category : String) (limit : Option ℚ) : Except String Budget :=
  match limit with
  | none => .error "Budget limit must be a positive number"
  | some l => if l ≤ 0 then .error "Budget limit must be positive" else .ok ⟨category, l⟩

structure LimitStatus where
  exceeded : Bool
  total : ℚ
  remaining : ℚ
  percentage : ℚ
deriving DecidableEq, Repr

/-- Computes `sum([e._amount for e in expenses if e._category == self._category])`. -/
def matchedTotal (b : Budget) (expenses : List Transaction) : ℚ :=
  ((expenses.filter (fun e => e.category == b.category)).map (fun e => e.amount)).sum

/-- Model of `Budget.check_limit(expenses)`. -/
def Budget.check_limit (b : Budget) (expenses : List Transaction) : LimitStatus :=
  let total := matchedTotal b expenses
  { exceeded := decide (b.limit < total)
    total := total
    remaining := max 0 (b.limit - total)
    percentage := min 100 (if 0 < b.limit then total / b.limit * 100 else 0) }

/-! Section: raw persisted records -/

structure RawTrans where
  id : String
  date : String
  amount : Option ℚ
  category : String
  ttype : String
  description : String
deriving DecidableEq, Repr

structure RawBudget where
  category : String
  limit : Option ℚ
deriving DecidableEq, Repr

/-! Section: TransactionManager -/

/-- Constructing a `Transaction` from one CSV row. -/
def buildRow (r : RawTrans) : Except String Transaction :=
  Transaction.build r.id r.date r.amount r.category r.ttype r.description

/-- Model of `TransactionManager.load_transactions`: rows failing validation
are skipped (and logged); an absent backing file yields `[]`. -/
def load_transactions : Option (List RawTrans) → List Transaction
  | none => []
  | some rows => rows.filterMap (fun r => (buildRow r).toOption)

/-- Model of `TransactionManager.add_transaction`: construct (validating)
first, then append the raw inputs as one record; on validation failure
nothing is written. -/
def add_transaction (store : List RawTrans) (tid date : String) (amount : Option ℚ)
    (category ttype desc : String) : Except String Transaction × List RawTrans :=
  match Transaction.build tid date amount category ttype desc with
  | .error e => (.error e, store)
  | .ok t => (.ok t, store ++ [⟨tid, date, amount, category, ttype, desc⟩])

/-- The row written back for a loaded transaction by `delete_transaction`
(note that `t._amount` is the parsed float and `t._trans_type` is
lowercased). -/
def serializeTrans (t : Transaction) : RawTrans :=
  ⟨t.trans_id, t.date, some t.amount, t.category, t.trans_type, t.description⟩

/-- Model of `TransactionManager.delete_transaction`: load all, drop the
matching id, rewrite the whole file, return `True`. -/
def delete_transaction (store : Option (List RawTrans)) (tid : String) :
    Bool × List RawTrans :=
  (true, ((load_transactions store).filter (fun t => t.trans_id != tid)).map serializeTrans)

/-! Section: BudgetManager -/

def buildBudgetRow (r : RawBudget) : Except String Budget :=
  Budget.build r.category r.limit

/-- Model of `BudgetManager.load_budgets`. -/
def load_budgets : Option (List RawBudget) → List Budget
  | none => []
  | some rows => rows.filterMap (fun r => (buildBudgetRow r).toOption)

/-- Insertion into the Python dict keyed by category (keys are always the
budget's own category): overwrite in place if the key is present, else
append. -/
def dinsert (m : List Budget) (b : Budget) : List Budget :=
  if m.any (fun x => x.category == b.category) then
    m.map (fun x => if x.category == b.category then b else x)
  else m ++ [b]

/-- The dict comprehension over `self.load_budgets()` as an insertion-ordered
association list. -/
def budgetsDict (bs : List Budget) : List Budget := bs.foldl dinsert []

def serializeBudget (b : Budget) : RawBudget := ⟨b.category, some b.limit⟩

/-- Model of `BudgetManager.set_budget`: validate, build the dict of existing
budgets, overwrite the entry for `category`, rewrite the whole file from the
dict. -/
def set_budget (store : Option (List RawBudget)) (category : String)
    (limit : Option ℚ) : Except String (Budget × List RawBudget) :=
  match Budget.build category limit with
  | .error e => .error e
  | .ok budget =>
    .ok (budget, (dinsert (budgetsDict (load_budgets store)) budget).map serializeBudget)

/-! Section: FinanceAnalyzer -/

structure Summary where
  total_income : ℚ
  total_expense : ℚ
  net_savings : ℚ
  savings_rate : ℚ
deriving DecidableEq, Repr

/-- Sum of the amounts of the transactions of one type. -/
def typeSum (ts : List Transaction) (ty : String) : ℚ :=
  ((ts.filter (fun t => t.trans_type == ty)).map (fun t => t.amount)).sum

/-- Model of `FinanceAnalyzer.get_financial_summary`. -/
def get_financial_summary (store : Option (List RawTrans)) : Option Summary :=
  let ts := load_transactions store
  if ts.isEmpty then none
  else
    let ti := typeSum ts "income"
    let te := typeSum ts "expense"
    some ⟨ti, te, ti - te, if 0 < ti then (ti - te) / ti * 100 else 0⟩

/-- Model of `df['date'].dt.to_period('M')`: the year-month of a transaction's
date (loaded transactions always carry a parseable date). -/
def transMonth (t : Transaction) : Nat × Nat :=
  match parseDate t.date with
  | some (y, m, _) => (y, m)
  | none => (0, 0)

structure MonthRow where
  month : Nat × Nat
  income : ℚ
  expense : ℚ
  savings : ℚ
deriving DecidableEq, Repr

/-- The `(month, type)` cell of the grouped table (`fill_value=0`). -/
def monthTypeSum (ts : List Transaction) (m : Nat × Nat) (ty : String) : ℚ :=
  ((ts.filter (fun t => transMonth t == m && t.trans_type == ty)).map
    (fun t => t.amount)).sum

/-- Model of `FinanceAnalyzer.generate_monthly_report` as the grouped table it
writes: one row per distinct year-month with the summed income, summed
expense and derived savings column.  (pandas sorts the group keys; row order
is abstracted here and no claim concerns it.) -/
def generate_monthly_report (store : Option (List RawTrans)) :
    Option (List MonthRow) :=
  let ts := load_transactions store
  if ts.isEmpty then none
  else
    some (((ts.map transMonth).dedup).map (fun m =>
      ⟨m, monthTypeSum ts m "income", monthTypeSum ts m "expense",
        monthTypeSum ts m "income" - monthTypeSum ts m "expense"⟩))

/-! Section: spec-worded strict date format (for comparison with the parser) -/

/-- Modelled from the spec: a *strict* `YYYY-MM-DD` string (four-digit year,
two-digit zero-padded month and day) naming a valid calendar date.  This is
the spec's wording of date validity, used only to compare against the code's
actual parser. -/
def strictDateSpec (s : String) : Bool :=
  match s.data with
  | [y1, y2, y3, y4, h1, m1, m2, h2, d1, d2] =>
    h1 == '-' && h2 == '-' &&
    isDig y1 && isDig y2 && isDig y3 && isDig y4 &&
    isDig m1 && isDig m2 && isDig d1 && isDig d2 &&
    (let y := 1000 * digVal y1 + 100 * digVal y2 + 10 * digVal y3 + digVal y4
     let m := 10 * digVal m1 + digVal m2
     let d := 10 * digVal d1 + digVal d2
     decide (1 ≤ y) && decide (1 ≤ m) && decide (m ≤ 12) &&
       decide (1 ≤ d) && decide (d ≤ daysInMonth y m))
  | _ => false

/-! Section: concrete fixtures used by the example parts of the claims -/

def c1expenses : List Transaction :=
  [⟨"a", "2024-01-01", 40, "Food", "expense", ""⟩,
   ⟨"b", "2024-01-02", 70, "Food", "expense", ""⟩,
   ⟨"c", "2024-01-03", 1000, "Other", "expense", ""⟩]

def c2rows : List RawTrans :=
  [⟨"1", "2024-01-15", some 1000, "Salary", "income", ""⟩,
   ⟨"2", "2024-01-20", some 400, "Food", "expense", ""⟩]

def c7bad : RawTrans := ⟨"b1", "2024-01-10", some (-5), "Food", "expense", ""⟩

def c7good : RawTrans := ⟨"g1", "2024-01-11", some 20, "Food", "expense", ""⟩

def c7goodT : Transaction := ⟨"g1", "2024-01-11", 20, "Food", "expense", ""⟩

def c8row : RawTrans := ⟨"j", "2024-01-15", some 5, "c", "income", ""⟩

def c8T : Transaction := ⟨"j", "2024-01-15", 5, "c", "income", ""⟩

def c9bad : RawTrans := ⟨"x1", "2024-07-00", some 3, "Food", "expense", ""⟩

def c9good : RawTrans := ⟨"x2", "2024-07-02", some 30, "Food", "expense", ""⟩

def c9goodT : Transaction := ⟨"x2", "2024-07-02", 30, "Food", "expense", ""⟩

end FinTrack

namespace FinTrack

/-! Section: basic characterizations of construction -/

theorem typeOk_iff {ty : String} :
    typeOk ty = true ↔ (lowerAscii ty = "income" ∨ lowerAscii ty = "expense") := by
  simp [typeOk]

theorem build_ok_iff {tid date : String} {amount : Option ℚ}
    {cat ty de : String} {t : Transaction} :
    Transaction.build tid date amount cat ty de = .ok t ↔
      validDate date = true ∧ typeOk ty = true ∧
        ∃ a, amount = some a ∧ 0 < a ∧ t = ⟨tid, date, a, cat, lowerAscii ty, de⟩ := by
  unfold Transaction.build Transaction.validate
  cases hv : validDate date with
  | false => simp
  | true =>
    cases amount with
    | none => simp
    | some a =>
      by_cases ha : a ≤ 0
      · simp [if_pos ha, not_lt.mpr ha]
      · by_cases hty : typeOk ty
        · simp [if_neg ha, hty, lt_of_not_le ha, eq_comm]
        · simp [if_neg ha, hty]

theorem build_error_of {tid date : String} {amount : Option ℚ}
    {cat ty de : String}
    (h : ¬(validDate date = true ∧ typeOk ty = true ∧ ∃ a, amount = some a ∧ 0 < a)) :
    ∃ e, Transaction.build tid date amount cat ty de = .error e := by
  cases hb : Transaction.build tid date amount cat ty de with
  | error e => exact ⟨e, rfl⟩
  | ok t =>
    rcases build_ok_iff.mp hb with ⟨h1, h2, a, h3, h4, _⟩
    exact absurd ⟨h1, h2, a, h3, h4⟩ h

theorem lowerAscii_income : lowerAscii "income" = "income" := by decide

theorem lowerAscii_expense : lowerAscii "expense" = "expense" := by decide

theorem build_ok_WF {tid date : String} {amount : Option ℚ}
    {cat ty de : String} {t : Transaction}
    (h : Transaction.build tid date amount cat ty de = .ok t) : t.WF := by
  rcases build_ok_iff.mp h with ⟨hd, hty, a, _, ha, rfl⟩
  exact ⟨hd, ha, typeOk_iff.mp hty⟩

theorem WF_type_lower {t : Transaction} (h : t.WF) :
    lowerAscii t.trans_type = t.trans_type := by
  rcases h.2.2 with h' | h' <;> rw [h']
  · exact lowerAscii_income
  · exact lowerAscii_expense

/-- A well-formed transaction reconstructs itself from its serialized row. -/
theorem buildRow_serialize {t : Transaction} (h : t.WF) :
    buildRow (serializeTrans t) = .ok t := by
  apply build_ok_iff.mpr
  refine ⟨h.1, ?_, t.amount, rfl, h.2.1, ?_⟩
  · apply typeOk_iff.mpr
    show lowerAscii t.trans_type = "income" ∨ lowerAscii t.trans_type = "expense"
    rw [WF_type_lower h]
    exact h.2.2
  · cases t
    simp [serializeTrans, WF_type_lower h]

theorem load_mem_WF {s : Option (List RawTrans)} {t : Transaction}
    (h : t ∈ load_transactions s) : t.WF := by
  cases s with
  | none => simp [load_transactions] at h
  | some rows =>
    simp only [load_transactions, List.mem_filterMap] at h
    rcases h with ⟨r, _, hr⟩
    cases hb : buildRow r with
    | error e => rw [hb] at hr; simp [Except.toOption] at hr
    | ok t' =>
      rw [hb] at hr
      simp only [Except.toOption, Option.some_inj] at hr
      exact hr ▸ build_ok_WF hb

/-- Loading a store of serialized well-formed transactions returns exactly
those transactions. -/
theorem load_serialized {l : List Transaction} (h : ∀ t ∈ l, t.WF) :
    load_transactions (some (l.map serializeTrans)) = l := by
  induction l with
  | nil => simp [load_transactions]
  | cons t ts ih =>
    have ht := h t (List.mem_cons_self t ts)
    have hts : load_transactions (some (ts.map serializeTrans)) = ts :=
      ih (fun u hu => h u (List.mem_cons_of_mem t hu))
    simp only [load_transactions, List.map_cons, List.filterMap_cons] at hts ⊢
    rw [buildRow_serialize ht]
    simpa [Except.toOption] using hts

theorem load_amount_pos {s : Option (List RawTrans)} {t : Transaction}
    (h : t ∈ load_transactions s) : 0 < t.amount :=
  (load_mem_WF h).2.1

theorem typeSum_load_nonneg (store : Option (List RawTrans)) (ty : String) :
    0 ≤ typeSum (load_transactions store) ty := by
  apply List.sum_nonneg
  intro x hx
  simp only [typeSum, List.mem_map, List.mem_filter] at hx
  rcases hx with ⟨t, ⟨ht, -⟩, rfl⟩
  exact (load_amount_pos ht).le

/-! Section: characterizations of budget construction and the category dict -/

theorem budget_build_ok_iff {c : String} {l : Option ℚ} {b : Budget} :
    Budget.build c l = .ok b ↔ ∃ v, l = some v ∧ 0 < v ∧ b = ⟨c, v⟩ := by
  unfold Budget.build
  cases l with
  | none => simp
  | some v =>
    by_cases hv : v ≤ 0
    · simp [if_pos hv, not_lt.mpr hv]
    · simp [if_neg hv, lt_of_not_le hv, eq_comm]

theorem set_budget_ok_iff {store : Option (List RawBudget)} {c : String}
    {l : Option ℚ} {b1 : Budget} {s1 : List RawBudget} :
    set_budget store c l = .ok (b1, s1) ↔
      Budget.build c l = .ok b1 ∧
        s1 = (dinsert (budgetsDict (load_budgets store)) b1).map serializeBudget := by
  unfold set_budget
  cases hb : Budget.build c l with
  | error e => simp
  | ok b =>
    simp only [Except.ok.injEq, Prod.mk.injEq]
    constructor
    · rintro ⟨rfl, rfl⟩
      exact ⟨rfl, rfl⟩
    · rintro ⟨hb1, rfl⟩
      exact ⟨hb1, by rw [hb1]⟩

theorem dinsert_cats_nodup {m : List Budget} {b : Budget}
    (h : (m.map (fun x => x.category)).Nodup) :
    ((dinsert m b).map (fun x => x.category)).Nodup := by
  unfold dinsert
  split
  · rename_i hany
    have hmap : (m.map (fun x => if x.category == b.category then b else x)).map
        (fun x => x.category) = m.map (fun x => x.category) := by
      rw [List.map_map]
      apply List.map_congr_left
      intro x hx
      by_cases hc : x.category == b.category
      · simp only [Function.comp_apply, if_pos hc]
        exact (beq_iff_eq.mp hc).symm
      · have hc' : ¬(x.category = b.category) := by simpa using hc
        simp [Function.comp_apply, hc, hc']
    rw [hmap]
    exact h
  · rename_i hany
    rw [List.map_append]
    refine List.Nodup.append h (List.nodup_singleton _) ?_
    intro a ha hb'
    simp only [List.map_cons, List.map_nil, List.mem_singleton] at hb'
    subst hb'
    simp only [List.mem_map] at ha
    rcases ha with ⟨x, hx, hxc⟩
    exact hany (List.any_eq_true.mpr ⟨x, hx, by simp [hxc]⟩)

theorem budgetsDict_cats_nodup (bs : List Budget) :
    ((budgetsDict bs).map (fun x => x.category)).Nodup := by
  suffices h : ∀ acc : List Budget, (acc.map (fun x => x.category)).Nodup →
      ((bs.foldl dinsert acc).map (fun x => x.category)).Nodup by
    exact h [] (by simp)
  induction bs with
  | nil => intro acc h; simpa using h
  | cons b bs ih =>
    intro acc h
    exact ih _ (dinsert_cats_nodup h)

theorem dinsert_filter_self {m : List Budget} {b : Budget}
    (h : (m.map (fun x => x.category)).Nodup) :
    (dinsert m b).filter (fun x => x.category == b.category) = [b] := by
  induction m with
  | nil => simp [dinsert]
  | cons x xs ih =>
    simp only [List.map_cons, List.nodup_cons] at h
    obtain ⟨hx_not, hxs⟩ := h
    by_cases hx : x.category == b.category
    · have hxcat : x.category = b.category := beq_iff_eq.mp hx
      have hany : (x :: xs).any (fun y => y.category == b.category) = true := by
        simp [List.any_cons, hx]
      unfold dinsert
      rw [if_pos hany, List.map_cons]
      have hfx : (if x.category == b.category then b else x) = b := if_pos hx
      have hxs_eq : xs.map (fun y => if y.category == b.category then b else y) = xs := by
        conv_rhs => rw [← List.map_id xs]
        apply List.map_congr_left
        intro y hy
        have hne : y.category ≠ b.category := by
          intro heq
          exact hx_not (List.mem_map.mpr ⟨y, hy, by rw [heq, hxcat]⟩)
        simp [hne]
      rw [hfx, hxs_eq]
      have hnone : List.filter (fun y => y.category == b.category) xs = [] := by
        apply List.filter_eq_nil_iff.mpr
        intro y hy
        intro hcontra
        exact hx_not (List.mem_map.mpr ⟨y, hy, by
          rw [beq_iff_eq] at hcontra
          rw [hcontra, hxcat]⟩)
      simp [List.filter_cons, hnone]
    · have hxcat : ¬(x.category = b.category) := by simpa using hx
      by_cases h2 : xs.any (fun y => y.category == b.category)
      · have hany : (x :: xs).any (fun y => y.category == b.category) = true := by
          simp [List.any_cons, h2]
        unfold dinsert
        rw [if_pos hany, List.map_cons]
        have hfx : (if x.category == b.category then b else x) = x := if_neg (by simp [hx])
        rw [hfx]
        have hd : dinsert xs b = xs.map (fun y => if y.category == b.category then b else y) := by
          unfold dinsert
          rw [if_pos h2]
        rw [List.filter_cons, if_neg (by simp [hx])]
        rw [← hd]
        exact ih hxs
      · have hany : ¬((x :: xs).any (fun y => y.category == b.category) = true) := by
          simp only [List.any_cons, Bool.or_eq_true]
          push_neg
          exact ⟨by simp [hx], by simp [List.any_eq_true] at h2 ⊢; exact h2⟩
        unfold dinsert
        rw [if_neg hany]
        have hnone : List.filter (fun y => y.category == b.category) xs = [] := by
          apply List.filter_eq_nil_iff.mpr
          intro y hy hcontra
          exact h2 (List.any_eq_true.mpr ⟨y, hy, hcontra⟩)
        simp [List.filter_append, List.filter_cons, hx, hnone]

end FinTrack

namespace FinTrack

/-! Section: C1, budget limit checking -/

/-- C1: for every budget with positive limit and every expense list,
`check_limit` returns total = the sum of the amounts of the transactions
whose category equals the budget's category by exact string match,
remaining = max 0 (limit - total), percentage = min 100 (total/limit*100)
and exceeded = (total > limit); in particular for Budget "Food" 100 against
expenses Food:40, Food:70, Other:1000 it returns total 110, remaining 0,
percentage 100, exceeded true. -/
theorem checkLimit_spec :
    (∀ (b : Budget) (es : List Transaction), 0 < b.limit →
      b.check_limit es =
        ⟨decide (b.limit < matchedTotal b es), matchedTotal b es,
          max 0 (b.limit - matchedTotal b es),
          min 100 (matchedTotal b es / b.limit * 100)⟩) ∧
    Budget.check_limit ⟨"Food", 100⟩ c1expenses = ⟨true, 110, 0, 100⟩ := by
  have main : ∀ (b : Budget) (es : List Transaction), 0 < b.limit →
      b.check_limit es =
        ⟨decide (b.limit < matchedTotal b es), matchedTotal b es,
          max 0 (b.limit - matchedTotal b es),
          min 100 (matchedTotal b es / b.limit * 100)⟩ := by
    intro b es h
    simp only [Budget.check_limit]
    rw [if_pos h]
  refine ⟨main, ?_⟩
  have ht : matchedTotal ⟨"Food", (100:ℚ)⟩ c1expenses = 110 := by
    simp [matchedTotal, c1expenses]
    norm_num
  rw [main _ _ (by norm_num), ht]
  simp [max_def, min_def]
  norm_num

/-- C1 witness: the general formula of `checkLimit_spec` applied at the
concrete Food example. -/
theorem checkLimit_spec_witness :
    Budget.check_limit ⟨"Food", (100:ℚ)⟩ c1expenses = ⟨true, 110, 0, 100⟩ := by
  have ht : matchedTotal ⟨"Food", (100:ℚ)⟩ c1expenses = 110 := by
    simp [matchedTotal, c1expenses]
    norm_num
  rw [checkLimit_spec.1 ⟨"Food", 100⟩ c1expenses (by norm_num), ht]
  simp [max_def, min_def]
  norm_num

/-! Section: C10, bounds of the limit-status record -/

/-- C10: for every budget with positive limit and every list of transactions
with positive amounts, `check_limit` keeps remaining within [0, limit] and
percentage within [0, 100]. -/
theorem checkLimit_bounds :
    ∀ (b : Budget) (es : List Transaction), 0 < b.limit →
      (∀ t ∈ es, 0 < t.amount) →
      0 ≤ (b.check_limit es).remaining ∧ (b.check_limit es).remaining ≤ b.limit ∧
      0 ≤ (b.check_limit es).percentage ∧ (b.check_limit es).percentage ≤ 100 := by
  intro b es hb ha
  have htot : 0 ≤ matchedTotal b es := by
    apply List.sum_nonneg
    intro x hx
    simp only [matchedTotal, List.mem_map, List.mem_filter] at hx
    rcases hx with ⟨e, ⟨he, _⟩, rfl⟩
    exact (ha e he).le
  simp only [Budget.check_limit, if_pos hb]
  refine ⟨le_max_left _ _, max_le hb.le (by linarith), ?_, min_le_left _ _⟩
  exact le_min (by norm_num) (by positivity)

/-- C10 witness: the bounds at the concrete Food example. -/
theorem checkLimit_bounds_witness :
    0 ≤ (Budget.check_limit ⟨"Food", (100:ℚ)⟩ c1expenses).remaining ∧
    (Budget.check_limit ⟨"Food", (100:ℚ)⟩ c1expenses).remaining ≤ 100 ∧
    0 ≤ (Budget.check_limit ⟨"Food", (100:ℚ)⟩ c1expenses).percentage ∧
    (Budget.check_limit ⟨"Food", (100:ℚ)⟩ c1expenses).percentage ≤ 100 :=
  checkLimit_bounds ⟨"Food", 100⟩ c1expenses (by norm_num)
    (by intro t ht
        simp only [c1expenses, List.mem_cons, List.not_mem_nil, or_false] at ht
        rcases ht with rfl | rfl | rfl <;> norm_num)

/-! Section: C3, rejection of invalid transaction inputs -/

/-- C3 counterexample: the date "2024-1-5" is not a strict zero-padded
`YYYY-MM-DD` calendar date, yet Transaction construction succeeds on it and
`add_transaction` writes a record, so the claim as stated fails: the code's
parser also accepts unpadded one-digit months and days. -/
theorem validation_counterexample :
    strictDateSpec "2024-1-5" = false ∧
    Transaction.build "x" "2024-1-5" (some 5) "Food" "income" "" =
      .ok ⟨"x", "2024-1-5", 5, "Food", "income", ""⟩ ∧
    (add_transaction [] "x" "2024-1-5" (some 5) "Food" "income" "").2 =
      [⟨"x", "2024-1-5", some 5, "Food", "income", ""⟩] := by
  have hb : Transaction.build "x" "2024-1-5" (some 5) "Food" "income" "" =
      .ok ⟨"x", "2024-1-5", 5, "Food", "income", ""⟩ :=
    build_ok_iff.mpr ⟨by decide, by decide, 5, rfl, by norm_num, by rfl⟩
  exact ⟨by decide, hb, by simp [add_transaction, hb]⟩

/-- C3 (amended): for every input whose date is rejected by the code's date
parser (four-digit year, one-or-two-digit month and day, valid calendar
date), or whose amount is unparseable or not positive, or whose type is not
case-insensitively income/expense, Transaction construction fails with a
validation error and `add_transaction` returns that error with the backing
store unchanged. -/
theorem validation_rejects_invalid :
    ∀ (store : List RawTrans) (tid date : String) (amount : Option ℚ)
      (cat ty de : String),
      (validDate date = false ∨ amount = none ∨
        (∃ a, amount = some a ∧ a ≤ 0) ∨ typeOk ty = false) →
      ∃ e, Transaction.build tid date amount cat ty de = .error e ∧
        add_transaction store tid date amount cat ty de = (.error e, store) := by
  intro store tid date amount cat ty de h
  obtain ⟨e, he⟩ : ∃ e, Transaction.build tid date amount cat ty de = .error e := by
    apply build_error_of
    rintro ⟨h1, h2, a, h3, h4⟩
    rcases h with h | h | ⟨a', h5, h6⟩ | h
    · rw [h1] at h; cases h
    · rw [h] at h3; exact Option.noConfusion h3
    · rw [h5] at h3
      have : a' = a := by injection h3
      linarith [this ▸ h6]
    · rw [h2] at h; cases h
  exact ⟨e, he, by simp [add_transaction, he]⟩

/-- C3 witness: the amended theorem applied at the invalid date
"2024-13-01". -/
theorem validation_rejects_invalid_witness :
    ∃ e, Transaction.build "w" "2024-13-01" (some 5) "Food" "income" "" = .error e ∧
      add_transaction [] "w" "2024-13-01" (some 5) "Food" "income" "" =
        (.error e, []) :=
  validation_rejects_invalid [] "w" "2024-13-01" (some 5) "Food" "income" ""
    (Or.inl (by decide))

/-! Section: C4, add-then-load round trip -/

/-- C4: for every valid input (parser-accepted date, positive amount, any
category, type case-insensitively income/expense), construction succeeds,
`add_transaction` appends exactly one raw record, and loading the resulting
store yields the previously loaded transactions followed by a transaction
with fields identical to the one `add_transaction` returned. -/
theorem add_load_roundtrip :
    ∀ (store : List RawTrans) (tid date : String) (a : ℚ) (cat ty de : String),
      validDate date = true → 0 < a → typeOk ty = true →
      ∃ t, add_transaction store tid date (some a) cat ty de =
          (.ok t, store ++ [⟨tid, date, some a, cat, ty, de⟩]) ∧
        load_transactions (some (store ++ [⟨tid, date, some a, cat, ty, de⟩])) =
          load_transactions (some store) ++ [t] := by
  intro store tid date a cat ty de hd ha hty
  have hb : Transaction.build tid date (some a) cat ty de =
      .ok ⟨tid, date, a, cat, lowerAscii ty, de⟩ :=
    build_ok_iff.mpr ⟨hd, hty, a, rfl, ha, rfl⟩
  refine ⟨⟨tid, date, a, cat, lowerAscii ty, de⟩, ?_, ?_⟩
  · simp [add_transaction, hb]
  · have hb2 : buildRow ⟨tid, date, some a, cat, ty, de⟩ =
        .ok ⟨tid, date, a, cat, lowerAscii ty, de⟩ := hb
    simp [load_transactions, List.filterMap_append, hb2, Except.toOption]

/-- C4 witness: the round trip at a concrete valid input with uppercase
type. -/
theorem add_load_roundtrip_witness :
    ∃ t, add_transaction [] "w4" "2024-03-05" (some 7) "Rent" "Expense" "" =
        (.ok t, [⟨"w4", "2024-03-05", some 7, "Rent", "Expense", ""⟩]) ∧
      load_transactions (some [⟨"w4", "2024-03-05", some 7, "Rent", "Expense", ""⟩]) =
        load_transactions (some []) ++ [t] := by
  have h := add_load_roundtrip [] "w4" "2024-03-05" 7 "Rent" "Expense" ""
    (by decide) (by norm_num) (by decide)
  simpa using h

end FinTrack

namespace FinTrack

/-! Section: C7, skip-invalid load semantics -/

theorem c7good_ok : buildRow c7good = .ok c7goodT :=
  build_ok_iff.mpr ⟨by decide, by decide, 20, rfl, by norm_num, by rfl⟩

theorem c7bad_err : ∃ e, buildRow c7bad = .error e :=
  build_error_of (by
    rintro ⟨-, -, a, ha, hpos⟩
    have : a = -5 := by
      have h5 : (some (-5) : Option ℚ) = some a := ha
      injection h5 with h6
      exact h6.symm
    rw [this] at hpos
    norm_num at hpos)

/-- C7: loading an absent backing store yields the empty sequence; every
persisted record that passes validation appears in the load result (an
invalid record never aborts the load); and the store holding one malformed
record (amount -5) and one valid record loads to exactly the valid one. -/
theorem load_skip_invalid :
    load_transactions none = [] ∧
    (∀ (rows : List RawTrans) (r : RawTrans) (t : Transaction),
      r ∈ rows → buildRow r = .ok t → t ∈ load_transactions (some rows)) ∧
    load_transactions (some [c7bad, c7good]) = [c7goodT] := by
  refine ⟨rfl, ?_, ?_⟩
  · intro rows r t hr hb
    simp only [load_transactions, List.mem_filterMap]
    exact ⟨r, hr, by simp [hb, Except.toOption]⟩
  · obtain ⟨e, he⟩ := c7bad_err
    simp [load_transactions, List.filterMap_cons, he, c7good_ok, Except.toOption]

/-- C7 witness: the valid record of the mixed store survives the load. -/
theorem load_skip_invalid_witness :
    c7goodT ∈ load_transactions (some [c7bad, c7good]) :=
  load_skip_invalid.2.1 [c7bad, c7good] c7good c7goodT
    (List.mem_cons_of_mem _ (List.mem_cons_self _ _)) c7good_ok

/-! Section: C2, financial summary -/

/-- C2: `get_financial_summary` returns none exactly when no transaction
loads from the store; otherwise the returned record carries the income sum,
the expense sum, their difference as net savings, and a savings rate that is
0 when total income is 0 and net/income*100 otherwise; on the store holding
income 1000 and expense 400 it returns 1000, 400, 600 and rate 60. -/
theorem financialSummary_spec :
    (∀ store : Option (List RawTrans),
      (get_financial_summary store = none ↔ load_transactions store = []) ∧
      (∀ s : Summary, get_financial_summary store = some s →
        s.total_income = typeSum (load_transactions store) "income" ∧
        s.total_expense = typeSum (load_transactions store) "expense" ∧
        s.net_savings = s.total_income - s.total_expense ∧
        (s.total_income = 0 → s.savings_rate = 0) ∧
        (s.total_income ≠ 0 →
          s.savings_rate = s.net_savings / s.total_income * 100))) ∧
    get_financial_summary (some c2rows) = some ⟨1000, 400, 600, 60⟩ := by
  constructor
  · intro store
    by_cases h : (load_transactions store).isEmpty
    · constructor
      · simp [get_financial_summary, h, List.isEmpty_iff.mp h]
      · intro s hs
        simp [get_financial_summary, h] at hs
    · have hne : load_transactions store ≠ [] := by
        simpa [List.isEmpty_iff] using h
      constructor
      · simp [get_financial_summary, h, hne]
      · intro s hs
        simp only [get_financial_summary, h, Bool.false_eq_true, if_false,
          Option.some_inj] at hs
        subst hs
        refine ⟨rfl, rfl, rfl, ?_, ?_⟩
        · intro h0
          simp only at h0
          simp [h0]
        · intro h0
          simp only at h0
          have hpos : 0 < typeSum (load_transactions store) "income" :=
            lt_of_le_of_ne (typeSum_load_nonneg store "income") (Ne.symm h0)
          simp [if_pos hpos]
  · have h1 : buildRow ⟨"1", "2024-01-15", some 1000, "Salary", "income", ""⟩ =
        .ok ⟨"1", "2024-01-15", 1000, "Salary", "income", ""⟩ :=
      build_ok_iff.mpr ⟨by decide, by decide, 1000, rfl, by norm_num, by rfl⟩
    have h2 : buildRow ⟨"2", "2024-01-20", some 400, "Food", "expense", ""⟩ =
        .ok ⟨"2", "2024-01-20", 400, "Food", "expense", ""⟩ :=
      build_ok_iff.mpr ⟨by decide, by decide, 400, rfl, by norm_num, by rfl⟩
    have hload : load_transactions (some c2rows) =
        [⟨"1", "2024-01-15", 1000, "Salary", "income", ""⟩,
         ⟨"2", "2024-01-20", 400, "Food", "expense", ""⟩] := by
      simp [load_transactions, c2rows, List.filterMap_cons, h1, h2, Except.toOption]
    have e1 : (("income":String) == "income") = true := by decide
    have e2 : (("expense":String) == "income") = false := by decide
    have e3 : (("income":String) == "expense") = false := by decide
    have e4 : (("expense":String) == "expense") = true := by decide
    simp only [get_financial_summary, hload]
    norm_num [typeSum, List.filter_cons, e1, e2, e3, e4]

/-- C2 witness: the summary theorem applied at the concrete two-transaction
store, recovering the income total and the 60 percent savings rate. -/
theorem financialSummary_spec_witness :
    (1000:ℚ) = typeSum (load_transactions (some c2rows)) "income" ∧
    (60:ℚ) = 600 / 1000 * 100 := by
  have h := (financialSummary_spec.1 (some c2rows)).2 ⟨1000, 400, 600, 60⟩
    financialSummary_spec.2
  refine ⟨h.1, ?_⟩
  have hr := h.2.2.2.2 (by norm_num)
  simpa using hr

/-! Section: C6, delete idempotence -/

/-- C6: `delete_transaction` returns true unconditionally (also when the id
is absent), and a second delete with the same id returns true and leaves the
rewritten store exactly as after the first call. -/
theorem delete_idempotent :
    ∀ (store : Option (List RawTrans)) (tid : String),
      (delete_transaction store tid).1 = true ∧
      delete_transaction (some (delete_transaction store tid).2) tid =
        (true, (delete_transaction store tid).2) := by
  intro store tid
  refine ⟨rfl, ?_⟩
  simp only [delete_transaction, Prod.mk.injEq, true_and]
  have hWF : ∀ t ∈ (load_transactions store).filter (fun t => t.trans_id != tid),
      t.WF := fun t ht => load_mem_WF (List.mem_of_mem_filter ht)
  rw [load_serialized hWF, List.filter_filter]
  simp

/-! Section: C9, delete rewrites the validated store -/

/-- C9: `delete_transaction` rewrites the backing store as exactly the
validated loaded transactions minus the matching id, re-serialized; hence
every record of the rewritten store re-validates, carries a parsed amount
and a lowercased type, and a persisted record failing validation is gone
after any delete call. -/
theorem delete_rewrites_validated :
    ∀ (store : Option (List RawTrans)) (tid : String),
      delete_transaction store tid =
        (true, ((load_transactions store).filter
          (fun t => t.trans_id != tid)).map serializeTrans) ∧
      ∀ r ∈ (delete_transaction store tid).2,
        ∃ t, Transaction.WF t ∧ t.trans_id ≠ tid ∧ r = serializeTrans t ∧
          buildRow r = .ok t := by
  intro store tid
  refine ⟨rfl, ?_⟩
  intro r hr
  simp only [delete_transaction, List.mem_map] at hr
  rcases hr with ⟨t, ht, rfl⟩
  have hWF : t.WF := load_mem_WF (List.mem_of_mem_filter ht)
  have hne : t.trans_id ≠ tid := by
    have h := List.of_mem_filter ht
    simpa using h
  exact ⟨t, hWF, hne, rfl, buildRow_serialize hWF⟩

theorem c9good_ok : buildRow c9good = .ok c9goodT :=
  build_ok_iff.mpr ⟨by decide, by decide, 30, rfl, by norm_num, by rfl⟩

theorem c9bad_err : ∃ e, buildRow c9bad = .error e :=
  build_error_of (by rintro ⟨hd, -, -⟩; exact absurd hd (by decide))

theorem c9load : load_transactions (some [c9bad, c9good]) = [c9goodT] := by
  obtain ⟨e, he⟩ := c9bad_err
  simp [load_transactions, List.filterMap_cons, he, c9good_ok, Except.toOption]

/-- C9 witness: in a store holding an invalid record (date "2024-07-00") and
a valid one, deleting a non-existent id leaves a rewritten store whose
record re-validates. -/
theorem delete_rewrites_validated_witness :
    ∃ t, Transaction.WF t ∧ t.trans_id ≠ "zzz" ∧
      serializeTrans c9goodT = serializeTrans t ∧
      buildRow (serializeTrans c9goodT) = .ok t := by
  apply (delete_rewrites_validated (some [c9bad, c9good]) "zzz").2
  show serializeTrans c9goodT ∈
    ((load_transactions (some [c9bad, c9good])).filter
      (fun t => t.trans_id != "zzz")).map serializeTrans
  rw [c9load]
  simp [c9goodT]

end FinTrack

namespace FinTrack

/-! Section: C5, one budget per category -/

/-- C5: after any successful `set_budget` the rewritten budget store holds at
most one record per category, and a second `set_budget` for the same
category keeps exactly one record for it, carrying the limit of the latest
call. -/
theorem setBudget_unique :
    ∀ (store : Option (List RawBudget)) (c : String) (l : Option ℚ)
      (b1 : Budget) (s1 : List RawBudget),
      set_budget store c l = .ok (b1, s1) →
      ((s1.map (fun r => r.category)).Nodup ∧
        ∀ (l2 : Option ℚ) (b2 : Budget) (s2 : List RawBudget),
          set_budget (some s1) c l2 = .ok (b2, s2) →
          ((s2.map (fun r => r.category)).Nodup ∧ b2.category = c ∧
            l2 = some b2.limit ∧
            s2.filter (fun r => r.category == c) = [⟨c, some b2.limit⟩])) := by
  intro store c l b1 s1 h1
  obtain ⟨hb1, hs1⟩ := set_budget_ok_iff.mp h1
  constructor
  · rw [hs1, List.map_map]
    exact dinsert_cats_nodup (budgetsDict_cats_nodup _)
  · intro l2 b2 s2 h2
    obtain ⟨hb2, hs2⟩ := set_budget_ok_iff.mp h2
    obtain ⟨v2, hl2, hv2, hb2eq⟩ := budget_build_ok_iff.mp hb2
    have hcat2 : b2.category = c := by rw [hb2eq]
    have hlim2 : l2 = some b2.limit := by rw [hb2eq]; exact hl2
    refine ⟨?_, hcat2, hlim2, ?_⟩
    · rw [hs2, List.map_map]
      exact dinsert_cats_nodup (budgetsDict_cats_nodup _)
    · rw [hs2, List.filter_map]
      have hpred : ((fun r : RawBudget => r.category == c) ∘ serializeBudget) =
          (fun x : Budget => x.category == b2.category) := by
        funext x
        simp [serializeBudget, hcat2]
      rw [hpred,
        dinsert_filter_self (budgetsDict_cats_nodup (load_budgets (some s1)))]
      simp [serializeBudget, hcat2]

theorem c5set1 : set_budget none "Food" (some 100) =
    .ok (⟨"Food", 100⟩, [⟨"Food", some 100⟩]) := by
  refine set_budget_ok_iff.mpr ⟨budget_build_ok_iff.mpr ⟨100, rfl, by norm_num, rfl⟩, ?_⟩
  simp [load_budgets, budgetsDict, dinsert, serializeBudget]

theorem c5set2 : set_budget (some [⟨"Food", some 100⟩]) "Food" (some 200) =
    .ok (⟨"Food", 200⟩, [⟨"Food", some 200⟩]) := by
  refine set_budget_ok_iff.mpr ⟨budget_build_ok_iff.mpr ⟨200, rfl, by norm_num, rfl⟩, ?_⟩
  have hb : buildBudgetRow ⟨"Food", some 100⟩ = .ok ⟨"Food", 100⟩ :=
    budget_build_ok_iff.mpr ⟨100, rfl, by norm_num, rfl⟩
  have hload : load_budgets (some [⟨"Food", some 100⟩]) = [⟨"Food", 100⟩] := by
    simp [load_budgets, List.filterMap_cons, hb, Except.toOption]
  rw [hload]
  simp [budgetsDict, dinsert, serializeBudget]

/-- C5 witness: setting the Food budget to 100 and then to 200 keeps exactly
one Food record, with limit 200. -/
theorem setBudget_unique_witness :
    (([⟨"Food", some 200⟩] : List RawBudget).map (fun r => r.category)).Nodup ∧
    ([⟨"Food", some 200⟩] : List RawBudget).filter (fun r => r.category == "Food") =
      [⟨"Food", some 200⟩] := by
  have h := setBudget_unique none "Food" (some 100) ⟨"Food", 100⟩
    [⟨"Food", some 100⟩] c5set1
  have h2 := h.2 (some 200) ⟨"Food", 200⟩ [⟨"Food", some 200⟩] c5set2
  exact ⟨h2.1, h2.2.2.2⟩

/-! Section: C8, monthly grouping -/

/-- C8: the monthly report is none exactly when no transaction loads; every
loaded transaction's year-month appears among the report's row keys; each
row carries the per-month income sum, per-month expense sum (0 when no entry
of that type exists for the month) and savings = income - expense; the
grouping key depends only on the year-month of the date, so "2024-01-15"
groups under (2024, 1) and "2024-02-01" under (2024, 2). -/
theorem monthlyReport_spec :
    (∀ store : Option (List RawTrans),
      (generate_monthly_report store = none ↔ load_transactions store = []) ∧
      (∀ rows : List MonthRow, generate_monthly_report store = some rows →
        (∀ t ∈ load_transactions store,
          transMonth t ∈ rows.map (fun r => r.month)) ∧
        (∀ row ∈ rows,
          row.income = monthTypeSum (load_transactions store) row.month "income" ∧
          row.expense = monthTypeSum (load_transactions store) row.month "expense" ∧
          row.savings = row.income - row.expense))) ∧
    (∀ (t u : Transaction) (y m d d2 : Nat),
      parseDate t.date = some (y, m, d) → parseDate u.date = some (y, m, d2) →
      transMonth t = transMonth u) ∧
    transMonth ⟨"a", "2024-01-15", 1, "c", "income", ""⟩ = (2024, 1) ∧
    transMonth ⟨"b", "2024-02-01", 1, "c", "income", ""⟩ = (2024, 2) := by
  refine ⟨?_, ?_, ?_, ?_⟩
  · intro store
    by_cases h : (load_transactions store).isEmpty
    · constructor
      · simp [generate_monthly_report, h, List.isEmpty_iff.mp h]
      · intro rows hrows
        simp [generate_monthly_report, h] at hrows
    · have hne : load_transactions store ≠ [] := by
        simpa [List.isEmpty_iff] using h
      constructor
      · simp [generate_monthly_report, h, hne]
      · intro rows hrows
        simp only [generate_monthly_report, h, Bool.false_eq_true, if_false,
          Option.some_inj] at hrows
        subst hrows
        constructor
        · intro t ht
          rw [List.map_map]
          have hcomp : ((fun r : MonthRow => r.month) ∘ fun m =>
              (⟨m, monthTypeSum (load_transactions store) m "income",
                monthTypeSum (load_transactions store) m "expense",
                monthTypeSum (load_transactions store) m "income" -
                  monthTypeSum (load_transactions store) m "expense"⟩ : MonthRow)) =
              id := by
            funext m
            rfl
          rw [hcomp, List.map_id]
          exact List.mem_dedup.mpr (List.mem_map_of_mem transMonth ht)
        · intro row hrow
          simp only [List.mem_map] at hrow
          rcases hrow with ⟨m, hm, rfl⟩
          exact ⟨rfl, rfl, rfl⟩
  · intro t u y m d d2 ht hu
    simp [transMonth, ht, hu]
  · have hp : parseDate "2024-01-15" = some (2024, 1, 15) := by decide
    simp [transMonth, hp]
  · have hp : parseDate "2024-02-01" = some (2024, 2, 1) := by decide
    simp [transMonth, hp]

theorem c8row_ok : buildRow c8row = .ok c8T :=
  build_ok_iff.mpr ⟨by decide, by decide, 5, rfl, by norm_num, by rfl⟩

theorem c8load : load_transactions (some [c8row]) = [c8T] := by
  simp [load_transactions, List.filterMap_cons, c8row_ok, Except.toOption]

theorem c8report : generate_monthly_report (some [c8row]) =
    some [⟨(2024, 1), 5, 0, 5⟩] := by
  have hp : parseDate "2024-01-15" = some (2024, 1, 15) := by decide
  have hm : transMonth c8T = (2024, 1) := by simp [transMonth, c8T, hp]
  have e1 : (("income":String) == "income") = true := by decide
  have e2 : (("income":String) == "expense") = false := by decide
  simp only [generate_monthly_report, c8load]
  norm_num [monthTypeSum, List.filter_cons, hm, e1, e2, List.dedup_cons_of_not_mem,
    show c8T.trans_type = "income" from rfl, show c8T.amount = 5 from rfl]

/-- C8 witness: the grouping theorem applied at the one-transaction January
store. -/
theorem monthlyReport_spec_witness :
    transMonth c8T ∈ ([⟨(2024, 1), 5, 0, 5⟩] : List MonthRow).map (fun r => r.month) :=
  ((monthlyReport_spec.1 (some [c8row])).2 [⟨(2024, 1), 5, 0, 5⟩] c8report).1 c8T
    (by rw [c8load]; exact List.mem_singleton.mpr rfl)

end FinTrack
